import Mathlib

/-!
Verification development for the mzIdentML-to-relational converter
(`parser/MzIdParser.py`).  The Python code is shallowly embedded: pyteomics
elements become association lists of keys and values, the controlled
vocabulary graph becomes a list of typed edges, and stateful loops become
folds or explicit recursions.  Fallible code paths return `Except`.
Numeric mass values are modelled as integers; no claim below depends on
fractional float behaviour.
-/

set_option maxRecDepth 10000

/-- Python value, as far as the converter inspects values: `None`, strings,
integers, booleans and lists. -/
inductive PValue where
  | pnone : PValue
  | pstr (s : String) : PValue
  | pint (n : Int) : PValue
  | pbool (b : Bool) : PValue
  | plist (xs : List PValue) : PValue
deriving Repr

mutual

/-- Python equality test between two values (used for dictionary key
membership in the main loop). -/
def pvalueBEq : PValue → PValue → Bool
  | .pnone, .pnone => true
  | .pstr a, .pstr b => a == b
  | .pint a, .pint b => a == b
  | .pbool a, .pbool b => a == b
  | .plist a, .plist b => plistBEq a b
  | _, _ => false

/-- Python equality test between two lists of values. -/
def plistBEq : List PValue → List PValue → Bool
  | [], [] => true
  | x :: xs, y :: ys => pvalueBEq x y && plistBEq xs ys
  | _, _ => false

end

/-- Python truthiness of a value, as used by `if crosslinker_id:` checks. -/
def pyTruthy : PValue → Bool
  | .pnone => false
  | .pstr s => !(s == "")
  | .pint n => !(n == 0)
  | .pbool b => b
  | .plist xs => !xs.isEmpty

/-- Python `str()` of a value.  `str(None)` is the literal string `None`;
the rendering of list values is never exercised by the converter and is
modelled as an empty string. -/
def pyStr : PValue → String
  | .pnone => "None"
  | .pstr s => s
  | .pint n => toString n
  | .pbool b => if b then "True" else "False"
  | .plist _ => ""

/-- Dictionary key of a pyteomics element: the key string together with its
`accession` attribute when the key is a controlled-vocabulary string. -/
structure PKey where
  name : String
  accession : Option String
deriving Repr, DecidableEq

/-- Pyteomics element: an insertion-ordered dictionary, with keys carrying
optional accessions. -/
abbrev PElement := List (PKey × PValue)

/-- Embeds `MzIdParser.get_accessions`: the accession of every key of the
element, with a missing accession attribute contributing an empty string. -/
def get_accessions (element : PElement) : List String :=
  element.map (fun kv => kv.1.accession.getD "")

/-- Edge of the psi-ms controlled-vocabulary graph: obonet stores one edge
per relation from a child term to a parent term, labelled by the relation
name. -/
structure OboEdge where
  child : String
  parent : String
  rel : String
deriving Repr, DecidableEq

/-- Python `i in filtered_idx` membership test over a list of indices. -/
def pyIn (i : Nat) (l : List Nat) : Bool :=
  l.any (fun j => i == j)

/-- Direct `is_a` children of the given superclass accessions, in the order
the code collects them from `ms_obo.in_edges`. -/
def isaChildren (edges : List OboEdge) (sups : List String) : List String :=
  sups.flatMap (fun a =>
    ((edges.filter (fun e => e.parent == a && e.rel == "is_a")).map OboEdge.child))

/-- Embeds `MzIdParser.get_cv_params`: with no superclass every key that
carries an accession is kept; with superclass accessions the code first
collects the direct `is_a` in-edges of each superclass term and keeps the
fields whose accession occurs among those children.  The index bookkeeping
mirrors the `enumerate` / `filtered_idx` structure of the source. -/
def get_cv_params (edges : List OboEdge) (element : PElement)
    (super_cls_accession : Option (List String)) : PElement :=
  let accessions := get_accessions element
  let filtered_idx : List Nat :=
    match super_cls_accession with
    | none =>
        ((accessions.enum).filter (fun ia => !(ia.2 == ""))).map Prod.fst
    | some sups =>
        let children := isaChildren edges sups
        ((accessions.enum).filter (fun ia => children.contains ia.2)).map Prod.fst
  ((element.enum).filter (fun ikv => pyIn ikv.1 filtered_idx)).map Prod.snd

/-- Modelled from the spec: bounded search deciding whether `x` reaches
`anc` via one or more `is_a` hops (the transitive closure of the is-a
relation pointing into the ancestor).  Used only to compare the code
against the wording of the specification. -/
def specIsDescendantAux (edges : List OboEdge) (anc : String) :
    Nat → String → Bool
  | 0, _ => false
  | fuel + 1, x =>
      ((edges.filter (fun e => e.child == x && e.rel == "is_a")).map OboEdge.parent).any
        (fun p => p == anc || specIsDescendantAux edges anc fuel p)

/-- Modelled from the spec: `x` is a descendant of `anc` reachable by one or
more `is_a` hops. -/
def specIsDescendant (edges : List OboEdge) (anc x : String) : Bool :=
  specIsDescendantAux edges anc (edges.length + 1) x

/-- Error conditions raised by the parser: the `MzIdParseException`s of the
source together with the builtin Python exceptions that can escape the
embedded code paths. -/
inductive MzIdErr where
  | toleranceMismatch : MzIdErr
  | specificityRuleErr : MzIdErr
  | modResolution : MzIdErr
  | enzymeNameAmbiguous : MzIdErr
  | indexError : MzIdErr
  | keyError : MzIdErr
deriving Repr, DecidableEq

/-- Positional modification element of a peptide, as read by
`parse_peptides`: the full dictionary (for accession scanning and value
lookup by key index), the mandatory `location` attribute, the optional
`monoisotopicMassDelta` attribute, and the `name` entry whose outer layer
records presence of the key and whose inner layer is its accession. -/
structure PepMod where
  entries : PElement
  location : Int
  monoisotopicMassDelta : Option Int
  name_accession : Option (Option String)
deriving Repr

/-- Peptide element: id, `PeptideSequence` and the optional `Modification`
child list. -/
structure Peptide where
  id : String
  sequence : String
  modifications : Option (List PepMod)
deriving Repr

/-- Embeds the position mapping of `parse_peptides` (source lines 455-460):
the source location is 1-based with 0 for the N-terminus and length+1 for the
C-terminus; the stored position is 0-based. -/
def mod_location (loc : Int) (seqLen : Nat) : Int :=
  if loc = 0 then 0
  else if loc = (seqLen : Int) + 1 then loc - 2
  else loc - 1

/-- Loop state of the per-peptide modification scan of `parse_peptides`. -/
structure PepLoopState where
  link_site1 : Int
  crosslinker_modmass : Int
  crosslinker_pair_id : Option PValue
  crosslinker_accession : Option String
  mod_pos : List Int
  mod_accessions : List (Option String)
  mod_masses : List (Option Int)
deriving Repr

/-- Initial per-peptide state (source lines 441-448). -/
def pepInitState : PepLoopState :=
  ⟨-1, 0, none, none, [], [], []⟩

/-- Value of the first entry of the element whose key carries the given
accession, mirroring `mod[list(mod.keys())[accessions.index(a)]]`. -/
def valueAtAccession (entries : PElement) (a : String) : Option PValue :=
  (entries.find? (fun kv => kv.1.accession.getD "" == a)).map Prod.snd

/-- Embeds one iteration of the loop over the Modification children of
a peptide in `parse_peptides`.  Direct dictionary or attribute accesses that
can fail in Python (the monoisotopic mass delta and the name accession on
the donor path and the ordinary path) raise a key error. -/
def pepModStep (p : Peptide) (st : PepLoopState) (m : PepMod) :
    Except MzIdErr PepLoopState :=
  let accessions := get_accessions m.entries
  let loc0 := mod_location m.location p.sequence.length
  if accessions.contains "MS:1002509" || accessions.contains "MS:1002510" then
    let st1 := { st with link_site1 := m.location }
    let afterDonor : Except MzIdErr PepLoopState :=
      if accessions.contains "MS:1002509" then
        match m.monoisotopicMassDelta, m.name_accession with
        | some mass, some nacc =>
            .ok { st1 with
              crosslinker_pair_id := valueAtAccession m.entries "MS:1002509",
              crosslinker_modmass := mass,
              crosslinker_accession := nacc }
        | _, _ => .error .keyError
      else
        .ok st1
    match afterDonor with
    | .error e => .error e
    | .ok st2 =>
        if accessions.contains "MS:1002510" then
          match m.monoisotopicMassDelta with
          | some mass =>
              .ok { st2 with
                crosslinker_pair_id := valueAtAccession m.entries "MS:1002510",
                crosslinker_modmass := mass }
          | none => .error .keyError
        else
          .ok st2
  else
    match m.name_accession with
    | none => .error .keyError
    | some nacc =>
        .ok { st with
          mod_pos := st.mod_pos ++ [loc0],
          mod_accessions := st.mod_accessions ++ [nacc],
          mod_masses := st.mod_masses ++ [m.monoisotopicMassDelta] }

/-- Folds `pepModStep` over the modification list of a peptide. -/
def pepModsLoop (p : Peptide) :
    List PepMod → PepLoopState → Except MzIdErr PepLoopState
  | [], st => .ok st
  | m :: rest, st =>
      match pepModStep p st m with
      | .ok st2 => pepModsLoop p rest st2
      | .error e => .error e

/-- Lifts an optional string to a Python value. -/
def optStrVal : Option String → PValue
  | none => .pnone
  | some s => .pstr s

/-- Lifts an optional integer to a Python value. -/
def optIntVal : Option Int → PValue
  | none => .pnone
  | some n => .pint n

/-- Embeds the `peptide_data` dictionary literal of `parse_peptides`
(source lines 515-527), including the unconditional
`str(crosslinker_pair_id)` conversion. -/
def peptide_data (uploadId : String) (p : Peptide) (st : PepLoopState) :
    List (String × PValue) :=
  [("id", .pstr p.id),
   ("upload_id", .pstr uploadId),
   ("base_sequence", .pstr p.sequence),
   ("modification_accessions", .plist (st.mod_accessions.map optStrVal)),
   ("modification_positions", .plist (st.mod_pos.map PValue.pint)),
   ("modification_masses", .plist (st.mod_masses.map optIntVal)),
   ("link_site1", .pint st.link_site1),
   ("crosslinker_modmass", .pint st.crosslinker_modmass),
   ("crosslinker_pair_id", .pstr (pyStr (st.crosslinker_pair_id.getD .pnone))),
   ("crosslinker_accession", optStrVal st.crosslinker_accession)]

/-- Embeds the processing of one peptide element inside `parse_peptides`:
scan the modifications when the `Modification` key is present, then build
the record. -/
def parse_peptide (uploadId : String) (p : Peptide) :
    Except MzIdErr (List (String × PValue)) :=
  match p.modifications with
  | some mods =>
      match pepModsLoop p mods pepInitState with
      | .ok st => .ok (peptide_data uploadId p st)
      | .error e => .error e
  | none => .ok (peptide_data uploadId p pepInitState)

/-- Embeds the batching loop of `parse_peptides`: a batch is written when
`peptide_index % 1000 == 0` holds after appending the current record (the
index is incremented afterwards), and the remaining records are written
once more after the loop. -/
def parse_peptides_go (uploadId : String) :
    List Peptide → Nat → List (List (String × PValue)) →
    List (List (List (String × PValue))) →
    Except MzIdErr (List (List (List (String × PValue))))
  | [], _, peptides, writes => .ok (writes ++ [peptides])
  | p :: rest, peptide_index, peptides, writes =>
      match parse_peptide uploadId p with
      | .error e => .error e
      | .ok record =>
          let peptides2 := peptides ++ [record]
          if peptide_index % 1000 = 0 then
            parse_peptides_go uploadId rest (peptide_index + 1) [] (writes ++ [peptides2])
          else
            parse_peptides_go uploadId rest (peptide_index + 1) peptides2 writes

/-- Embeds `MzIdParser.parse_peptides`, returning the successive
write_data batches of ModifiedPeptide records in order. -/
def parse_peptides (uploadId : String) (peps : List Peptide) :
    Except MzIdErr (List (List (List (String × PValue)))) :=
  parse_peptides_go uploadId peps 0 [] []

/-- Case-insensitive infix test on character lists. -/
def listInfix (needle hay : List Char) : Bool :=
  hay.tails.any (fun t => needle.isPrefixOf t)

/-- Python `needle in hay` substring test. -/
def strContains (hay needle : String) : Bool :=
  listInfix needle.toList hay.toList

/-- Python lower() over the characters of a string. -/
def strLower (s : String) : String :=
  String.mk (s.toList.map Char.toLower)

/-- Embeds the score-key test of `main_loop`: a field belongs to the free
form score mapping when its lowercased name contains one of the five
score-related substrings. -/
def isScoreKey (k : String) : Bool :=
  strContains (strLower k) "score" || strContains (strLower k) "pvalue" ||
  strContains (strLower k) "evalue" || strContains (strLower k) "sequest" ||
  strContains (strLower k) "scaffold"

/-- Spectrum identification item: the full dictionary of string-keyed
fields (used for the cross-link marker and the score scan) together with
the individually read attributes. -/
structure SpecIdItem where
  entries : List (String × PValue)
  id : String
  peptide_ref : String
  chargeState : Int
  passThreshold : Bool
  rank : Option Int
  experimentalMassToCharge : Int
  calculatedMassToCharge : Option Int
deriving Repr

/-- Spectrum identification result: the spectrum id, the spectra-data
reference and the contained identification items. -/
structure SidResult where
  spectrumID : String
  spectraData_ref : String
  items : List SpecIdItem
deriving Repr

/-- Match record built by `main_loop` (the `ident_data` dictionary literal,
source lines 663-676). -/
structure IdentData where
  id : String
  upload_id : String
  spectrum_id : String
  spectra_data_ref : String
  pep1_id : String
  pep2_id : Option String
  charge_state : Int
  pass_threshold : Bool
  rank : Int
  scores : List (String × PValue)
  exp_mz : Int
  calc_mz : Option Int
deriving Repr

/-- Updates in place the match stored under the given pairing key,
attaching the peptide reference of the second half of a cross-link pair as
`pep2_id` (the Python code mutates the dictionary value). -/
def attachPep2 (k : PValue) (pref : String) :
    List (PValue × IdentData) → List (PValue × IdentData)
  | [] => []
  | (k2, v) :: rest =>
      if pvalueBEq k2 k then (k2, { v with pep2_id := some pref }) :: rest
      else (k2, v) :: attachPep2 k pref rest

/-- Embeds one iteration of the `for spec_id_item in
sid_result SpectrumIdentificationItem list` of `main_loop`.  The state
is the process-wide cross-link flag together with the per-spectrum pairing
dictionary; an absent marker leaves the Python variable `crosslink_id` as
`None`, which is modelled by the `pnone` value. -/
def mainLoopItem (uploadId : String) (sid : SidResult)
    (st : Bool × List (PValue × IdentData)) (item : SpecIdItem) :
    Bool × List (PValue × IdentData) :=
  let (containsCrosslinks, d) := st
  let (containsCrosslinks, crosslink_id) :=
    match item.entries.lookup "cross-link spectrum identification item" with
    | some v => (true, v)
    | none => (containsCrosslinks, PValue.pnone)
  if d.any (fun kv => pvalueBEq kv.1 crosslink_id) then
    (containsCrosslinks, attachPep2 crosslink_id item.peptide_ref d)
  else
    let scores := item.entries.filter (fun kv => isScoreKey kv.1)
    let rank : Int :=
      match item.rank with
      | none => 1
      | some r => if r = 0 then 1 else r
    let ident : IdentData :=
      { id := item.id,
        upload_id := uploadId,
        spectrum_id := sid.spectrumID,
        spectra_data_ref := sid.spectraData_ref,
        pep1_id := item.peptide_ref,
        pep2_id := none,
        charge_state := item.chargeState,
        pass_threshold := item.passThreshold,
        rank := rank,
        scores := scores,
        exp_mz := item.experimentalMassToCharge,
        calc_mz := item.calculatedMassToCharge }
    if pyTruthy crosslink_id then
      (containsCrosslinks, d ++ [(crosslink_id, ident)])
    else
      (containsCrosslinks, d)

/-- Result of the main loop: the successive
write_data batches of SpectrumIdentification records and the process-wide
cross-link flag. -/
structure MainLoopResult where
  writes : List (List IdentData)
  containsCrosslinks : Bool
deriving Repr

/-- Embeds the outer loop of `main_loop` without peak-list association (the
peak-list directory is not configured, so the spectrum branch of the source
is skipped): per spectrum result the items are folded through
`mainLoopItem`, the values of the pairing dictionary are appended to the
output buffer, and the buffer is flushed every 1000 spectra and once more
after the stream ends. -/
def main_loop_go (uploadId : String) :
    List SidResult → Bool → Nat → List IdentData → List (List IdentData) →
    MainLoopResult
  | [], ccl, _, buffer, writes => ⟨writes ++ [buffer], ccl⟩
  | sid :: rest, ccl, spec_count, buffer, writes =>
      let (ccl, d) := sid.items.foldl (mainLoopItem uploadId sid) (ccl, [])
      let buffer := buffer ++ d.map Prod.snd
      let spec_count := spec_count + 1
      if spec_count % 1000 = 0 then
        main_loop_go uploadId rest ccl spec_count [] (writes ++ [buffer])
      else
        main_loop_go uploadId rest ccl spec_count buffer writes

/-- Embeds `MzIdParser.main_loop` over a stream of spectrum identification
results. -/
def main_loop (uploadId : String) (results : List SidResult) :
    MainLoopResult :=
  main_loop_go uploadId results false 0 [] []

/-- Tolerance cvParam: its numeric value (modelled as an integer) and its
`unit_info` attribute. -/
structure Tolerance where
  value : Int
  unit_info : String
deriving Repr, DecidableEq

/-- FragmentTolerance element: the optional plus and minus tolerance
entries. -/
structure FragTolElem where
  plus : Option Tolerance
  minus : Option Tolerance
deriving Repr, DecidableEq

/-- Embeds the re.sub call that strips every character other than digits,
commas and dots from the stringified tolerance value: keep only digits, commas and
dots. -/
def re_sub_keep_numeric (s : String) : String :=
  String.mk (s.toList.filter (fun c => c.isDigit || c == ',' || c == '.'))

/-- Embeds the unit normalization of the fragment tolerance: parts per
million becomes `ppm`, dalton becomes `Da`, anything else is passed
through. -/
def normalizeUnit (u : String) : String :=
  if strLower u == "parts per million" then "ppm"
  else if strLower u == "dalton" then "Da"
  else u

/-- Embeds the FragmentTolerance block of
`parse_analysis_protocol_collection` (source lines 198-224): a missing
element, plus value or minus value raises a key error that the source
catches and turns into the default of 10 ppm plus a warning; differing
plus and minus values or units raise the mismatch exception, which is not
a key error and therefore escapes. -/
def processFragTol (ft : Option FragTolElem) :
    Except MzIdErr (String × String × List String) :=
  match ft with
  | none => pure ("10", "ppm", ["could not parse ms2tolerance"])
  | some ftel =>
      match ftel.plus with
      | none => pure ("10", "ppm", ["could not parse ms2tolerance"])
      | some tp =>
          let v := re_sub_keep_numeric (toString tp.value)
          let u := normalizeUnit tp.unit_info
          match ftel.minus with
          | none => pure ("10", "ppm", ["could not parse ms2tolerance"])
          | some tm =>
              if tp.value == tm.value && tp.unit_info == tm.unit_info then
                pure (v, u, [])
              else
                throw .toleranceMismatch

/-- Embeds the regular-expression match
re.match of the pattern MOD-or-UNIMOD-or-MS-or-XLMOD, a colon and one or
more digits against the accession: the matched portion of
the string when it starts with a recognized accession, otherwise
nothing. -/
def accessionMatch (s : String) : Option String :=
  (["MOD", "UNIMOD", "MS", "XLMOD"].filterMap (fun p =>
    if (p ++ ":").toList.isPrefixOf s.toList then
      let digits := ((s.toList.drop (p.length + 1)).takeWhile Char.isDigit)
      if digits.isEmpty then none else some (p ++ ":" ++ String.mk digits)
    else none)).head?

/-- Accumulated name, accession and cross-linker id of one declared search
modification. -/
structure ModNameState where
  mod_name : Option String
  mod_accession : Option String
  crosslinker_id : Option PValue
deriving Repr

/-- Renders the synthesized display name of an unknown modification,
the mass delta rounded to two decimals and parenthesized.  Masses are modelled as integers so
the two decimal places are always zero. -/
def formatMassDelta (m : Int) : String :=
  "(" ++ toString m ++ ".00)"

/-- Embeds one iteration of the loop over the enumerated accessions of a
SearchModification element: each recognized accession may overwrite the
name, the accession and the cross-linker id accumulated so far. -/
def searchModStep (massDelta : Int) (k : PKey) (v : PValue)
    (st : ModNameState) : ModNameState :=
  match accessionMatch (k.accession.getD "") with
  | none => st
  | some g =>
      { mod_accession :=
          if g ≠ "MS:1002509" then some (k.accession.getD "")
          else st.mod_accession,
        crosslinker_id :=
          if g = "MS:1002509" ∨ g = "MS:1002510" then some v
          else st.crosslinker_id,
        mod_name :=
          if g = "MS:1001460" then some (formatMassDelta massDelta)
          else if g ≠ "MS:1002509" then some k.name
          else st.mod_name }

/-- Embeds the loop over the enumerated accessions of one
SearchModification element (source lines 276-293), threading the state
through the entries in order. -/
def searchModLoop (massDelta : Int) :
    PElement → ModNameState → ModNameState
  | [], st => st
  | (k, v) :: rest, st =>
      searchModLoop massDelta rest (searchModStep massDelta k v st)

/-- SearchModification element: the dictionary of fields, the mass delta,
the residue list, the fixed flag and the optional SpecificityRules child
elements. -/
structure SearchModElem where
  entries : PElement
  massDelta : Int
  residues : List Char
  fixedMod : Bool
  specificityRules : List PElement
deriving Repr

/-- SearchModification record written to the sink (source lines
303-314). -/
structure SearchModData where
  id : Nat
  upload_id : String
  protocol_id : String
  mod_name : String
  mass : Int
  residues : String
  specificity_rules : List String
  fixed_mod : Bool
  accession : String
  crosslinker_id : Option PValue
deriving Repr

/-- Embeds the SpecificityRules scan: each rule element must contribute
exactly one accession or the parse fails. -/
def processSpecRules : List PElement → Except MzIdErr (List String)
  | [] => pure []
  | rule :: rest => do
      let sra := get_accessions rule
      match sra with
      | [a] => pure (a :: (← processSpecRules rest))
      | _ => throw .specificityRuleErr

/-- Embeds the processing of one `SearchModification` element: specificity
rules, the accession scan, the name and accession resolution check, the
truthiness-guarded stringification of the cross-linker id, and the record
literal. -/
def processSearchMod (uploadId protocolId : String) (modIndex : Nat)
    (m : SearchModElem) : Except MzIdErr SearchModData := do
  let spec_rule_accessions ← processSpecRules m.specificityRules
  let st := searchModLoop m.massDelta m.entries ⟨none, none, none⟩
  match st.mod_name, st.mod_accession with
  | some nm, some acc =>
      let cid : Option PValue :=
        match st.crosslinker_id with
        | some v => if pyTruthy v then some (.pstr (pyStr v)) else some v
        | none => none
      pure
        { id := modIndex,
          upload_id := uploadId,
          protocol_id := protocolId,
          mod_name := nm,
          mass := m.massDelta,
          residues := String.mk (m.residues.filter (fun c => c ≠ ' ')),
          specificity_rules := spec_rule_accessions,
          fixed_mod := m.fixedMod,
          accession := acc,
          crosslinker_id := cid }
  | _, _ => throw .modResolution

/-- Folds `processSearchMod` over the declared modifications with the
per-protocol ordinal index. -/
def processSearchMods (uploadId protocolId : String) :
    List SearchModElem → Nat → Except MzIdErr (List SearchModData)
  | [], _ => pure []
  | m :: rest, modIndex => do
      let d ← processSearchMod uploadId protocolId modIndex m
      pure (d :: (← processSearchMods uploadId protocolId rest (modIndex + 1)))

/-- Enzyme element: id, the optional `EnzymeName` child element, the
optional plain `name` attribute, the optional `SiteRegexp` child and the
remaining optional attributes. -/
structure EnzymeElem where
  id : String
  enzymeName : Option PElement
  name : Option String
  siteRegexp : Option String
  cTermGain : Option PValue
  nTermGain : Option PValue
  minDistance : Option PValue
  missedCleavages : Option PValue
  semiSpecific : Option PValue
deriving Repr

/-- Enzyme record written to the sink (source lines 353-365). -/
structure EnzymeData where
  id : String
  upload_id : String
  protocol_id : String
  name : Option String
  c_term_gain : Option PValue
  n_term_gain : Option PValue
  min_distance : Option PValue
  missed_cleavages : Option PValue
  semi_specific : Option PValue
  site_regexp : Option String
  accession : Option String
deriving Repr

/-- Embeds the site-regexp backfill: the `has_regexp` out-edges of the
enzyme accession are scanned and the display name of the last matching
parent node is used (a missing node name is modelled as an empty
string). -/
def backfillRegexp (edges : List OboEdge) (nodeNames : List (String × String))
    (acc : Option String) : Option String :=
  match acc with
  | none => none
  | some a =>
      ((edges.filter (fun e => e.child == a && e.rel == "has_regexp")).map
        (fun e => (nodeNames.lookup e.parent).getD "")).getLast?

/-- Embeds the processing of one `Enzyme` element (source lines 318-365):
with an explicit `EnzymeName` element the candidate cvParams filtered to
children of the cleavage agent name term must number at most one — more
raise the ambiguity exception, and zero make the `[0]` index raise an
index error that the surrounding key-error handler does not catch; without
an `EnzymeName` element the plain `name` attribute is the fallback. -/
def processEnzymeNamed (edges : List OboEdge)
    (nodeNames : List (String × String)) (uploadId protocolId : String)
    (e : EnzymeElem) (el : PElement) : Except MzIdErr EnzymeData :=
  let enzyme_name := get_cv_params edges el (some ["MS:1001045"])
  if enzyme_name.length > 1 then throw .enzymeNameAmbiguous
  else
    match enzyme_name.head? with
    | none => throw .indexError
    | some (k, _) =>
        let enzyme_accession := k.accession
        let site_regexp :=
          match e.siteRegexp with
          | some r => some r
          | none => backfillRegexp edges nodeNames enzyme_accession
        pure
          { id := e.id,
            upload_id := uploadId,
            protocol_id := protocolId,
            name := some k.name,
            c_term_gain := e.cTermGain,
            n_term_gain := e.nTermGain,
            min_distance := e.minDistance,
            missed_cleavages := e.missedCleavages,
            semi_specific := e.semiSpecific,
            site_regexp := site_regexp,
            accession := enzyme_accession }

/-- Embeds the dispatch on the optional EnzymeName child of one Enzyme
element: with the child present the candidate filtering applies, otherwise
the plain name attribute is the fallback. -/
def processEnzyme (edges : List OboEdge) (nodeNames : List (String × String))
    (uploadId protocolId : String) (e : EnzymeElem) :
    Except MzIdErr EnzymeData :=
  match e.enzymeName with
  | some el => processEnzymeNamed edges nodeNames uploadId protocolId e el
  | none =>
      pure
        { id := e.id,
          upload_id := uploadId,
          protocol_id := protocolId,
          name := e.name,
          c_term_gain := e.cTermGain,
          n_term_gain := e.nTermGain,
          min_distance := e.minDistance,
          missed_cleavages := e.missedCleavages,
          semi_specific := e.semiSpecific,
          site_regexp := e.siteRegexp,
          accession := none }

/-- Folds `processEnzyme` over the enzymes of a protocol. -/
def processEnzymes (edges : List OboEdge) (nodeNames : List (String × String))
    (uploadId protocolId : String) :
    List EnzymeElem → Except MzIdErr (List EnzymeData)
  | [] => pure []
  | e :: rest => do
      let d ← processEnzyme edges nodeNames uploadId protocolId e
      pure (d :: (← processEnzymes edges nodeNames uploadId protocolId rest))

/-- SpectrumIdentificationProtocol element, with the parts of the detailed
pyteomics dictionary that the source reads. -/
structure ProtocolElem where
  id : String
  fragmentTolerance : Option FragTolElem
  analysisSoftware : Option String
  additionalSearchParams : PElement
  searchModifications : List SearchModElem
  enzymes : List EnzymeElem
deriving Repr

/-- Protocol record written to the sink (source lines 245-252). -/
structure ProtocolData where
  id : String
  upload_id : String
  frag_tol : String
  ions : List String
  analysis_software : String
deriving Repr

/-- Embeds the fragmentation-ion extraction: the cvParams of
`AdditionalSearchParams` that are children of the ion series term, with a
fallback to b and y ions plus a warning when none are found. -/
def processIons (edges : List OboEdge) (addSp : PElement) :
    List String × List String :=
  let ions := (get_cv_params edges addSp (some ["MS:1002473"])).map
    (fun kv => kv.1.accession.getD "")
  if ions.length = 0 then
    (["MS:1001118", "MS:1001262"], ["no fragment ions, falling back to b and y ions"])
  else
    (ions, [])

/-- Embeds the processing of one protocol element inside
`parse_analysis_protocol_collection`: tolerance, analysis software,
fragmentation ions, declared modifications and enzymes, in source
order. -/
def processProtocol (edges : List OboEdge) (nodeNames : List (String × String))
    (uploadId : String) (p : ProtocolElem) :
    Except MzIdErr
      (ProtocolData × List SearchModData × List EnzymeData × List String) := do
  let (v, u, warnings) ← processFragTol p.fragmentTolerance
  let analysis_software := p.analysisSoftware.getD "\x7b\x7d"
  let (ions, ionWarnings) := processIons edges p.additionalSearchParams
  let data : ProtocolData :=
    { id := p.id,
      upload_id := uploadId,
      frag_tol := v ++ " " ++ u,
      ions := ions,
      analysis_software := analysis_software }
  let mods ← processSearchMods uploadId p.id p.searchModifications 0
  let enzymes ← processEnzymes edges nodeNames uploadId p.id p.enzymes
  pure (data, mods, enzymes, warnings ++ ionWarnings)

/-- Output of `parse_analysis_protocol_collection`: the three sink writes
and the accumulated warnings.  The writes happen only after every protocol
element has been processed, so an error on any element means no write at
all. -/
structure APCResult where
  protocols : List ProtocolData
  search_modifications : List SearchModData
  enzymes : List EnzymeData
  warnings : List String
deriving Repr

/-- Folds `processProtocol` over the protocol list, accumulating the
records in source order. -/
def apcLoop (edges : List OboEdge) (nodeNames : List (String × String))
    (uploadId : String) :
    List ProtocolElem → APCResult → Except MzIdErr APCResult
  | [], acc => pure acc
  | p :: rest, acc => do
      let (data, mods, enzymes, warnings) ← processProtocol edges nodeNames uploadId p
      apcLoop edges nodeNames uploadId rest
        { protocols := acc.protocols ++ [data],
          search_modifications := acc.search_modifications ++ mods,
          enzymes := acc.enzymes ++ enzymes,
          warnings := acc.warnings ++ warnings }

/-- Embeds `MzIdParser.parse_analysis_protocol_collection`: an `ok` result
carries the records of the three terminal `write_data` calls; an error
result means the exception escaped before any write happened. -/
def parse_analysis_protocol_collection (edges : List OboEdge)
    (nodeNames : List (String × String)) (uploadId : String)
    (protocols : List ProtocolElem) : Except MzIdErr APCResult :=
  apcLoop edges nodeNames uploadId protocols ⟨[], [], [], []⟩

/-- C8: the position mapping of `parse_peptides` for a peptide of length L
takes source location 0 to stored 0, source location L+1 to stored L-1,
and any other source location k with 0 < k < L+1 to stored k-1. -/
theorem c8_position_mapping (L : Nat) (k : Int) :
    mod_location 0 L = 0 ∧
    mod_location ((L : Int) + 1) L = (L : Int) - 1 ∧
    (0 < k → k < (L : Int) + 1 → mod_location k L = k - 1) := by
  refine ⟨by simp [mod_location], ?_, ?_⟩
  · unfold mod_location
    rw [if_neg (by omega), if_pos rfl]
    omega
  · intro h1 h2
    unfold mod_location
    rw [if_neg (by omega), if_neg (by omega)]

/-- Witness for C8 at length 5 and interior location 3. -/
theorem c8_position_mapping_witness :
    (0 < (3 : Int)) ∧ ((3 : Int) < (5 : Int) + 1) ∧
    mod_location 3 5 = 3 - 1 :=
  ⟨by decide, by decide, (c8_position_mapping 5 3).2.2 (by decide) (by decide)⟩

/-- Peptide element with no Modification child at all. -/
def c3pep : Peptide := ⟨"pep3", "MEPTIDE", none⟩

/-- C3: evaluation of the code at the failing input.  A peptide with no
cross-link donor or acceptor modification is emitted with the literal
string None as its cross-link pair identifier, because the source applies
str to the Python None value unconditionally. -/
theorem c3_pair_id_is_string_none :
    (parse_peptide "u1" c3pep).map
        (fun r => r.lookup "crosslinker_pair_id")
      = Except.ok (some (PValue.pstr "None")) := rfl

/-- Ordinary (non cross-link) oxidation modification element. -/
def c9mod : PepMod :=
  ⟨[(⟨"Oxidation", some "UNIMOD:35"⟩, .pstr "")], 3, some 16,
   some (some "UNIMOD:35")⟩

/-- Peptide element with one ordinary modification. -/
def c9pep : Peptide := ⟨"pep9", "MEPTIDEK", some [c9mod]⟩

/-- C9: evaluation of the code at the failing input.  The emitted peptide
record carries exactly three ordinary-modification parallel arrays
(accessions, positions and monoisotopic masses); no average-mass-delta
array exists among its fields. -/
theorem c9_record_has_no_avg_mass_array :
    (parse_peptide "u1" c9pep).map (fun r => r.map Prod.fst)
      = Except.ok ["id", "upload_id", "base_sequence",
          "modification_accessions", "modification_positions",
          "modification_masses", "link_site1", "crosslinker_modmass",
          "crosslinker_pair_id", "crosslinker_accession"] := rfl

/-- Linear spectrum identification item: no cross-link marker among its
fields. -/
def c1item : SpecIdItem :=
  ⟨[("Mascot:score", .pint 30)], "SII_1", "pep1", 2, true, some 1, 400, none⟩

/-- Spectrum result holding the single linear item. -/
def c1sid : SidResult := ⟨"spec1", "sd1", [c1item]⟩

/-- C1: evaluation of the code at the failing input.  A spectrum result
whose only identification item is linear contributes nothing to the
emitted SpectrumIdentification batches: the single terminal write is
empty, so the linear Match with null pep2 is never emitted to the sink. -/
theorem c1_linear_item_not_emitted :
    (main_loop "u1" [c1sid]).writes = [[]] := rfl

/-- Reduction of one modification step when the element carries neither the
cross-link donor nor the cross-link acceptor accession: only the three
ordinary-modification arrays can change. -/
lemma pepModStep_ordinary (p : Peptide) (st : PepLoopState) (m : PepMod)
    (h1 : (get_accessions m.entries).contains "MS:1002509" = false)
    (h2 : (get_accessions m.entries).contains "MS:1002510" = false) :
    pepModStep p st m =
      match m.name_accession with
      | none => .error .keyError
      | some nacc =>
          .ok { st with
            mod_pos := st.mod_pos ++ [mod_location m.location p.sequence.length],
            mod_accessions := st.mod_accessions ++ [nacc],
            mod_masses := st.mod_masses ++ [m.monoisotopicMassDelta] } := by
  simp only [pepModStep]
  rw [h1, h2]
  rfl

/-- The modification scan leaves the four cross-link fields of the state
untouched when no element of the list carries a donor or acceptor
accession. -/
lemma pepModsLoop_keeps (p : Peptide) (mods : List PepMod)
    (hall : ∀ m ∈ mods,
      (get_accessions m.entries).contains "MS:1002509" = false ∧
      (get_accessions m.entries).contains "MS:1002510" = false) :
    ∀ st st2, pepModsLoop p mods st = .ok st2 →
      st2.link_site1 = st.link_site1 ∧
      st2.crosslinker_modmass = st.crosslinker_modmass ∧
      st2.crosslinker_pair_id = st.crosslinker_pair_id ∧
      st2.crosslinker_accession = st.crosslinker_accession := by
  induction mods with
  | nil =>
      intro st st2 h
      cases h
      exact ⟨rfl, rfl, rfl, rfl⟩
  | cons m rest ih =>
      intro st st2 h
      have hm := hall m (List.mem_cons_self _ _)
      simp only [pepModsLoop] at h
      rw [pepModStep_ordinary p st m hm.1 hm.2] at h
      cases hna : m.name_accession with
      | none =>
          rw [hna] at h
          exact Except.noConfusion h
      | some nacc =>
          rw [hna] at h
          have hkeep := ih (fun m2 hm2 => hall m2 (List.mem_cons_of_mem _ hm2)) _ st2 h
          simpa using hkeep

/-- Lookup of the link site field of the emitted peptide record. -/
lemma lookup_link_site1 (u : String) (p : Peptide) (st : PepLoopState) :
    (peptide_data u p st).lookup "link_site1" = some (.pint st.link_site1) := rfl

/-- Lookup of the cross-linker mass field of the emitted peptide record. -/
lemma lookup_crosslinker_modmass (u : String) (p : Peptide) (st : PepLoopState) :
    (peptide_data u p st).lookup "crosslinker_modmass"
      = some (.pint st.crosslinker_modmass) := rfl

/-- Lookup of the cross-linker accession field of the emitted peptide
record. -/
lemma lookup_crosslinker_accession (u : String) (p : Peptide) (st : PepLoopState) :
    (peptide_data u p st).lookup "crosslinker_accession"
      = some (optStrVal st.crosslinker_accession) := rfl

/-- C10: a peptide element with no cross-link donor or acceptor
modification is emitted with the sentinel link site -1, the sentinel
cross-linker mass delta 0 and a null cross-linker accession. -/
theorem c10_sentinel_crosslink_fields (uploadId : String) (p : Peptide)
    (hall : ∀ m ∈ p.modifications.getD [],
      (get_accessions m.entries).contains "MS:1002509" = false ∧
      (get_accessions m.entries).contains "MS:1002510" = false) :
    ∀ r, parse_peptide uploadId p = Except.ok r →
      r.lookup "link_site1" = some (.pint (-1)) ∧
      r.lookup "crosslinker_modmass" = some (.pint 0) ∧
      r.lookup "crosslinker_accession" = some .pnone := by
  intro r hr
  unfold parse_peptide at hr
  cases hmods : p.modifications with
  | none =>
      rw [hmods] at hr
      have hr2 : Except.ok (α := List (String × PValue)) (ε := MzIdErr)
          (peptide_data uploadId p pepInitState) = Except.ok r := hr
      injection hr2 with hr3
      subst hr3
      exact ⟨rfl, rfl, rfl⟩
  | some mods =>
      rw [hmods] at hr
      have hr2 : (match pepModsLoop p mods pepInitState with
          | Except.ok st => Except.ok (peptide_data uploadId p st)
          | Except.error e => Except.error e) = Except.ok r := hr
      cases hloop : pepModsLoop p mods pepInitState with
      | error e =>
          rw [hloop] at hr2
          exact Except.noConfusion hr2
      | ok st2 =>
          rw [hloop] at hr2
          injection hr2 with hr3
          subst hr3
          have hall2 : ∀ m ∈ mods,
              (get_accessions m.entries).contains "MS:1002509" = false ∧
              (get_accessions m.entries).contains "MS:1002510" = false := by
            intro m hm
            exact hall m (by rw [hmods]; simpa using hm)
          have hkeep := pepModsLoop_keeps p mods hall2 pepInitState st2 hloop
          refine ⟨?_, ?_, ?_⟩
          · rw [lookup_link_site1, hkeep.1]; rfl
          · rw [lookup_crosslinker_modmass, hkeep.2.1]; rfl
          · rw [lookup_crosslinker_accession, hkeep.2.2.2]; rfl

/-- Witness for C10: a peptide with one ordinary modification satisfies the
hypothesis, its parse succeeds, and the emitted record carries the sentinel
and null cross-link fields. -/
theorem c10_sentinel_crosslink_fields_witness :
    (∀ m ∈ c9pep.modifications.getD [],
      (get_accessions m.entries).contains "MS:1002509" = false ∧
      (get_accessions m.entries).contains "MS:1002510" = false) ∧
    (∃ r, parse_peptide "u1" c9pep = Except.ok r) ∧
    (∀ r, parse_peptide "u1" c9pep = Except.ok r →
      r.lookup "link_site1" = some (.pint (-1)) ∧
      r.lookup "crosslinker_modmass" = some (.pint 0) ∧
      r.lookup "crosslinker_accession" = some .pnone) :=
  ⟨by decide, ⟨_, rfl⟩, c10_sentinel_crosslink_fields "u1" c9pep (by decide)⟩

/-- Sizes of the successive peptide batches: a pure model of the batching
skeleton of `parse_peptides_go`, tracking only the running index, the
buffer size and the write sizes. -/
def goSizes : Nat → Nat → Nat → List Nat → List Nat
  | 0, _, b, ws => ws ++ [b]
  | k + 1, i, b, ws =>
      if i % 1000 = 0 then goSizes k (i + 1) 0 (ws ++ [b + 1])
      else goSizes k (i + 1) (b + 1) ws

/-- The write sizes of the peptide batching loop on a replicated input
follow the `goSizes` skeleton. -/
lemma parse_peptides_go_sizes (u : String) (pep : Peptide)
    (r : List (String × PValue)) (hp : parse_peptide u pep = .ok r) :
    ∀ (k i : Nat) (bs : List (List (String × PValue)))
      (ws : List (List (List (String × PValue)))),
    ∃ ws2, parse_peptides_go u (List.replicate k pep) i bs ws = .ok ws2 ∧
      ws2.map List.length = goSizes k i bs.length (ws.map List.length) := by
  intro k
  induction k with
  | zero =>
      intro i bs ws
      exact ⟨ws ++ [bs], rfl, by simp [goSizes]⟩
  | succ k ih =>
      intro i bs ws
      rw [List.replicate_succ]
      simp only [parse_peptides_go, hp]
      by_cases hi : i % 1000 = 0
      · rw [if_pos hi]
        obtain ⟨ws2, h1, h2⟩ := ih (i + 1) [] (ws ++ [bs ++ [r]])
        refine ⟨ws2, h1, ?_⟩
        rw [h2]
        simp [goSizes, hi, List.length_append]
      · rw [if_neg hi]
        obtain ⟨ws2, h1, h2⟩ := ih (i + 1) (bs ++ [r]) ws
        refine ⟨ws2, h1, ?_⟩
        rw [h2]
        simp [goSizes, hi, List.length_append]

/-- Plain peptide element used for the batching evaluation. -/
def c2pep : Peptide := ⟨"p", "AAA", none⟩

/-- C2: evaluation of the code at the failing input.  For 2500 peptide
elements the sink receives four ModifiedPeptide write calls with batch
sizes 1, 1000, 1000 and 499, because the modulus test fires on the very
first element (index 0) before the index is incremented. -/
theorem c2_batch_sizes_off_by_one :
    ∃ ws, parse_peptides "u1" (List.replicate 2500 c2pep) = Except.ok ws ∧
      ws.map List.length = [1, 1000, 1000, 499] := by
  obtain ⟨ws2, h1, h2⟩ :=
    parse_peptides_go_sizes "u1" c2pep
      (peptide_data "u1" c2pep pepInitState) rfl 2500 0 [] []
  refine ⟨ws2, h1, ?_⟩
  rw [h2]
  decide

/-- Test whether an accession field matches the recognized-accession
pattern with a match other than the cross-link donor term, which is
exactly the condition under which the search-modification loop overwrites
the stored accession. -/
def nonDonorMatchTest (a : String) : Bool :=
  match accessionMatch a with
  | some g => !(g == "MS:1002509")
  | none => false

/-- Last element of the list satisfying the test, with a default; written
as the left fold that the accession-overwriting loop performs. -/
def lastMatchedAcc (test : String → Bool) :
    List String → Option String → Option String
  | [], dflt => dflt
  | a :: rest, dflt =>
      lastMatchedAcc test rest (if test a then some a else dflt)

/-- First-some choice between an optional value and a default. -/
def optOrDefault (o : Option String) (dflt : Option String) : Option String :=
  match o with
  | some a => some a
  | none => dflt

/-- A nonempty list always has a last element. -/
lemma getLast?_cons_ne_none {α : Type _} (c : α) (t : List α) :
    (c :: t).getLast? ≠ none := by
  induction t generalizing c with
  | nil => simp
  | cons d t ih =>
      rw [List.getLast?_cons_cons]
      exact ih d

/-- The last-match fold equals the last element of the filtered list, with
the fold default used when no element matches. -/
lemma lastMatchedAcc_eq (test : String → Bool) :
    ∀ (l : List String) (dflt : Option String),
      lastMatchedAcc test l dflt = optOrDefault ((l.filter test).getLast?) dflt := by
  intro l
  induction l with
  | nil => intro dflt; rfl
  | cons a l ih =>
      intro dflt
      simp only [lastMatchedAcc, List.filter_cons]
      by_cases ha : test a
      · rw [if_pos ha, if_pos ha, ih]
        cases hfl : l.filter test with
        | nil => simp [optOrDefault]
        | cons c t =>
            rw [List.getLast?_cons_cons]
            cases hg : (c :: t).getLast? with
            | none => exact absurd hg (getLast?_cons_ne_none c t)
            | some b => simp [optOrDefault]
      · rw [if_neg ha, if_neg ha, ih]

/-- The accession component of one loop iteration: overwritten exactly when
the field matches the pattern with a non-donor match. -/
lemma searchModStep_mod_accession (md : Int) (k : PKey) (v : PValue)
    (st : ModNameState) :
    (searchModStep md k v st).mod_accession
      = if nonDonorMatchTest (k.accession.getD "")
        then some (k.accession.getD "") else st.mod_accession := by
  unfold searchModStep nonDonorMatchTest
  cases hm : accessionMatch (k.accession.getD "") with
  | none => rfl
  | some g =>
      by_cases hd : g = "MS:1002509"
      · simp [hd]
      · simp [hd]

/-- The accession accumulated by the search-modification loop is the last
matching non-donor field, the initial accumulator serving as default. -/
lemma searchModLoop_mod_accession (md : Int) :
    ∀ (entries : PElement) (st : ModNameState),
    (searchModLoop md entries st).mod_accession
      = lastMatchedAcc nonDonorMatchTest (get_accessions entries) st.mod_accession := by
  intro entries
  induction entries with
  | nil => intro st; rfl
  | cons kv rest ih =>
      intro st
      obtain ⟨k, v⟩ := kv
      simp only [searchModLoop, get_accessions, List.map_cons, lastMatchedAcc]
      rw [ih, searchModStep_mod_accession]
      rfl

/-- Modelled from the spec: the stored accession is the first field
matching the recognized-accession pattern, excluding the donor term, with
acceptor terms serving as the accession source only when no other
accession exists.  Used only to compare the code against the wording of
the specification. -/
def specClaimAccession (accs : List String) : Option String :=
  match accs.find? (fun a =>
    match accessionMatch a with
    | some g => !(g == "MS:1002509") && !(g == "MS:1002510")
    | none => false) with
  | some a => some a
  | none => accs.find? nonDonorMatchTest

/-- SearchModification element fields holding an ordinary modification
accession followed by the cross-link acceptor term. -/
def c5mod : PElement :=
  [(⟨"Oxidation", some "UNIMOD:35"⟩, .pstr ""),
   (⟨"cross-link acceptor", some "MS:1002510"⟩, .pstr "7")]

/-- C5 counterexample: on an element holding an ordinary accession followed
by the acceptor term, the code stores the acceptor accession (the last
matching field), while the claim prescribes the first matching field with
the acceptor only as a fallback. -/
theorem c5_counterexample :
    (searchModLoop 0 c5mod ⟨none, none, none⟩).mod_accession
        = some "MS:1002510" ∧
    specClaimAccession (get_accessions c5mod) = some "UNIMOD:35" ∧
    (some "MS:1002510" : Option String) ≠ some "UNIMOD:35" :=
  ⟨by decide, by decide, by decide⟩

/-- C5 amended: the stored accession of a declared search modification is
the last field of the element matching the recognized-accession pattern
whose match is not the cross-link donor term; in particular an acceptor
term overrides any earlier accession. -/
theorem c5_last_matching_accession (massDelta : Int) (entries : PElement) :
    (searchModLoop massDelta entries ⟨none, none, none⟩).mod_accession
      = ((get_accessions entries).filter nonDonorMatchTest).getLast? := by
  rw [searchModLoop_mod_accession, lastMatchedAcc_eq]
  cases h : ((get_accessions entries).filter nonDonorMatchTest).getLast? with
  | none => rfl
  | some a => rfl

/-- Indices produced by enumeration from n are at least n. -/
lemma enumFrom_fst_le {α : Type _} :
    ∀ (l : List α) (n : Nat), ∀ x ∈ List.enumFrom n l, n ≤ x.1 := by
  intro l
  induction l with
  | nil => intro n x hx; simp [List.enumFrom] at hx
  | cons a t ih =>
      intro n x hx
      rw [List.enumFrom_cons, List.mem_cons] at hx
      rcases hx with rfl | hx
      · exact Nat.le_refl n
      · exact Nat.le_of_succ_le (ih (n + 1) x hx)

/-- Filtering by membership of the own index in the index list of the
fields whose mapped value passes the test is the same as filtering by the
test itself: the enumerate-then-select-indices idiom of `get_cv_params`
computes an ordinary filter. -/
lemma cv_idx_filter {α β : Type _} (f : α → β) (p : β → Bool) :
    ∀ (l : List α) (n : Nat),
    ((List.enumFrom n l).filter (fun ix =>
        pyIn ix.1
          (((List.enumFrom n (l.map f)).filter (fun ia => p ia.2)).map Prod.fst))).map
      Prod.snd = l.filter (fun x => p (f x)) := by
  intro l
  induction l with
  | nil => intro n; simp [List.enumFrom]
  | cons x xs ih =>
      intro n
      simp only [List.map_cons, List.enumFrom_cons, List.filter_cons]
      have hge : ∀ j ∈ ((List.enumFrom (n + 1) (xs.map f)).filter
          (fun ia => p ia.2)).map Prod.fst, n + 1 ≤ j := by
        intro j hj
        rcases List.mem_map.mp hj with ⟨ia, hia, rfl⟩
        exact enumFrom_fst_le _ _ _ (List.mem_filter.mp hia).1
      by_cases hp : p (f x)
      · rw [if_pos hp, if_pos hp]
        simp only [List.map_cons, List.filter_cons]
        have hhead : pyIn n (n :: ((List.enumFrom (n + 1) (xs.map f)).filter
            (fun ia => p ia.2)).map Prod.fst) = true := by
          simp [pyIn]
        rw [if_pos hhead]
        have hcong := List.filter_congr (l := List.enumFrom (n + 1) xs)
          (p := fun ix => pyIn ix.1
            (n :: ((List.enumFrom (n + 1) (xs.map f)).filter
              (fun ia => p ia.2)).map Prod.fst))
          (q := fun ix => pyIn ix.1
            (((List.enumFrom (n + 1) (xs.map f)).filter
              (fun ia => p ia.2)).map Prod.fst))
          (by
            intro ix hix
            have h1 : n + 1 ≤ ix.1 := enumFrom_fst_le _ _ _ hix
            simp only [pyIn, List.any_cons]
            have h2 : (ix.1 == n) = false := by
              rw [beq_eq_false_iff_ne]
              omega
            rw [h2, Bool.false_or])
        rw [List.map_cons, hcong, ih (n + 1)]
      · rw [if_neg hp, if_neg hp]
        have hhead : pyIn n (((List.enumFrom (n + 1) (xs.map f)).filter
            (fun ia => p ia.2)).map Prod.fst) = false := by
          simp only [pyIn, List.any_eq_false]
          intro j hj
          have := hge j hj
          simp only [beq_iff_eq]
          omega
        rw [if_neg (by simp [hhead]), ih (n + 1)]

/-- C4 amended: with superclass accessions given, the CV extraction keeps
exactly the fields whose accession is a direct is-a child of one of the
given ancestor terms, not a descendant through multiple hops. -/
theorem c4_keeps_direct_children (edges : List OboEdge) (element : PElement)
    (sups : List String) :
    get_cv_params edges element (some sups)
      = element.filter (fun kv =>
          (isaChildren edges sups).contains (kv.1.accession.getD "")) := by
  simp only [get_cv_params, get_accessions, List.enum]
  exact cv_idx_filter (fun kv => kv.1.accession.getD "")
    (fun b => (isaChildren edges sups).contains b) element 0

/-- Two-hop ontology fragment: A is-a B, B is-a C. -/
def c4edges : List OboEdge := [⟨"A", "B", "is_a"⟩, ⟨"B", "C", "is_a"⟩]

/-- Element with one field whose accession is the grandchild term A. -/
def c4elem : PElement := [(⟨"fieldA", some "A"⟩, .pnone)]

/-- C4 counterexample: on the two-hop fragment the code keeps nothing for
ancestor C, while the transitive-descendant reading of the claim keeps the
grandchild field, so the extraction does not keep exactly the fields whose
accession is a descendant reachable by one or more is-a hops. -/
theorem c4_counterexample :
    ¬ (get_cv_params c4edges c4elem (some ["C"])
        = c4elem.filter (fun kv =>
            specIsDescendant c4edges "C" (kv.1.accession.getD ""))) := by
  intro h
  exact absurd (congrArg List.length h) (by decide)

/-- Ontology fragment declaring trypsin and chymotrypsin as cleavage agent
names. -/
def c6edges : List OboEdge :=
  [⟨"MS:1001251", "MS:1001045", "is_a"⟩, ⟨"MS:1001306", "MS:1001045", "is_a"⟩]

/-- EnzymeName element whose single cvParam is not a cleavage agent name,
leaving zero candidates after filtering. -/
def c6elZero : PElement := [(⟨"other term", some "MS:9999"⟩, .pnone)]

/-- Enzyme element carrying the zero-candidate EnzymeName element. -/
def c6enzZero : EnzymeElem :=
  ⟨"enz1", some c6elZero, none, none, none, none, none, none, none⟩

/-- C6 counterexample: an EnzymeName element resolving to zero candidates
does not raise the enzyme-name-ambiguity error; the indexing of the empty
candidate list raises an index error instead. -/
theorem c6_counterexample :
    processEnzyme c6edges [] "u1" "p1" c6enzZero
      ≠ Except.error MzIdErr.enzymeNameAmbiguous := by
  intro h
  rw [show processEnzyme c6edges [] "u1" "p1" c6enzZero
      = Except.error MzIdErr.indexError from rfl] at h
  injection h with h2
  exact MzIdErr.noConfusion h2

/-- C6 amended: with an explicit EnzymeName element, more than one
candidate after filtering to children of the cleavage agent name term
raises the ambiguity error, while zero candidates raise an index error
rather than the ambiguity error. -/
theorem c6_candidate_count_errors (edges : List OboEdge)
    (nodeNames : List (String × String)) (uploadId protocolId : String)
    (e : EnzymeElem) (el : PElement) (h : e.enzymeName = some el) :
    (1 < (get_cv_params edges el (some ["MS:1001045"])).length →
      processEnzyme edges nodeNames uploadId protocolId e
        = Except.error MzIdErr.enzymeNameAmbiguous) ∧
    ((get_cv_params edges el (some ["MS:1001045"])).length = 0 →
      processEnzyme edges nodeNames uploadId protocolId e
        = Except.error MzIdErr.indexError) := by
  have hdisp : processEnzyme edges nodeNames uploadId protocolId e
      = processEnzymeNamed edges nodeNames uploadId protocolId e el := by
    unfold processEnzyme
    rw [h]
  constructor
  · intro hlen
    rw [hdisp]
    simp only [processEnzymeNamed]
    rw [if_pos hlen]
    rfl
  · intro hlen
    rw [hdisp]
    rw [List.length_eq_zero] at hlen
    simp only [processEnzymeNamed]
    rw [hlen]
    rfl

/-- EnzymeName element resolving to two cleavage agent name candidates. -/
def c6elTwo : PElement :=
  [(⟨"Trypsin", some "MS:1001251"⟩, .pnone),
   (⟨"Chymotrypsin", some "MS:1001306"⟩, .pnone)]

/-- Enzyme element carrying the two-candidate EnzymeName element. -/
def c6enzTwo : EnzymeElem :=
  ⟨"enz2", some c6elTwo, none, none, none, none, none, none, none⟩

/-- Witness for C6: on a two-candidate EnzymeName element the hypothesis
holds and the ambiguity error is raised. -/
theorem c6_candidate_count_errors_witness :
    (c6enzTwo.enzymeName = some c6elTwo) ∧
    (1 < (get_cv_params c6edges c6elTwo (some ["MS:1001045"])).length) ∧
    processEnzyme c6edges [] "u1" "p1" c6enzTwo
      = Except.error MzIdErr.enzymeNameAmbiguous :=
  ⟨rfl, by decide,
    (c6_candidate_count_errors c6edges [] "u1" "p1" c6enzTwo c6elTwo rfl).1
      (by decide)⟩

/-- Mismatched plus and minus tolerances make the tolerance block raise the
mismatch exception. -/
lemma processFragTol_mismatch (ft : FragTolElem) (tp tm : Tolerance)
    (hp : ft.plus = some tp) (hm : ft.minus = some tm)
    (hne : tp.value ≠ tm.value ∨ tp.unit_info ≠ tm.unit_info) :
    processFragTol (some ft) = Except.error MzIdErr.toleranceMismatch := by
  simp only [processFragTol]
  rw [hp, hm]
  have hfalse : (tp.value == tm.value && tp.unit_info == tm.unit_info) = false := by
    rcases hne with hne | hne
    · rw [beq_eq_false_iff_ne.mpr hne, Bool.false_and]
    · rw [beq_eq_false_iff_ne.mpr hne, Bool.and_false]
  show (if (tp.value == tm.value && tp.unit_info == tm.unit_info) = true then
      (pure (re_sub_keep_numeric (toString tp.value),
        normalizeUnit tp.unit_info, [])
        : Except MzIdErr (String × String × List String))
    else throw MzIdErr.toleranceMismatch)
    = Except.error MzIdErr.toleranceMismatch
  rw [hfalse]
  rfl

/-- An error of any protocol element of the list makes the whole
analysis-protocol-collection pass fail before any write. -/
lemma apcLoop_mem_error (edges : List OboEdge)
    (nodeNames : List (String × String)) (uploadId : String)
    (p : ProtocolElem)
    (hp : ∀ x, processProtocol edges nodeNames uploadId p ≠ Except.ok x) :
    ∀ (ps : List ProtocolElem), p ∈ ps →
      ∀ (acc : APCResult) (r : APCResult),
        apcLoop edges nodeNames uploadId ps acc ≠ Except.ok r := by
  intro ps
  induction ps with
  | nil => intro hmem; exact absurd hmem (List.not_mem_nil p)
  | cons q rest ih =>
      intro hmem acc r hr
      simp only [apcLoop] at hr
      cases hq : processProtocol edges nodeNames uploadId q with
      | error e =>
          rw [hq] at hr
          exact Except.noConfusion hr
      | ok out =>
          rw [hq] at hr
          rcases List.mem_cons.mp hmem with rfl | hmem2
          · exact hp out hq
          · obtain ⟨data, mods, enzymes, warnings⟩ := out
            exact ih hmem2 _ r hr

/-- C7: a protocol element whose plus and minus fragment tolerances differ
in value or in unit makes its processing raise the mismatch error, and no
protocol record reaches the sink from any collection pass containing the
element, because the three writes happen only after every element has been
processed. -/
theorem c7_tolerance_mismatch_no_write (edges : List OboEdge)
    (nodeNames : List (String × String)) (uploadId : String)
    (p : ProtocolElem) (ft : FragTolElem) (tp tm : Tolerance)
    (hft : p.fragmentTolerance = some ft) (hp : ft.plus = some tp)
    (hm : ft.minus = some tm)
    (hne : tp.value ≠ tm.value ∨ tp.unit_info ≠ tm.unit_info) :
    processProtocol edges nodeNames uploadId p
      = Except.error MzIdErr.toleranceMismatch ∧
    ∀ (ps : List ProtocolElem), p ∈ ps → ∀ (r : APCResult),
      parse_analysis_protocol_collection edges nodeNames uploadId ps
        ≠ Except.ok r := by
  have h1 : processProtocol edges nodeNames uploadId p
      = Except.error MzIdErr.toleranceMismatch := by
    unfold processProtocol
    rw [hft, processFragTol_mismatch ft tp tm hp hm hne]
    rfl
  refine ⟨h1, ?_⟩
  intro ps hmem r
  exact apcLoop_mem_error edges nodeNames uploadId p
    (fun x hx => Except.noConfusion (h1 ▸ hx)) ps hmem _ r

/-- Protocol element with asymmetric fragment tolerances. -/
def c7prot : ProtocolElem :=
  ⟨"prot7", some ⟨some ⟨10, "dalton"⟩, some ⟨20, "dalton"⟩⟩, none, [], [], []⟩

/-- Witness for C7: on the asymmetric protocol the hypotheses hold, the
mismatch error is raised, and no collection pass containing it succeeds. -/
theorem c7_tolerance_mismatch_no_write_witness :
    (c7prot.fragmentTolerance = some ⟨some ⟨10, "dalton"⟩, some ⟨20, "dalton"⟩⟩) ∧
    ((10 : Int) ≠ 20 ∨ ("dalton" : String) ≠ "dalton") ∧
    processProtocol [] [] "u1" c7prot
      = Except.error MzIdErr.toleranceMismatch ∧
    ∀ (r : APCResult),
      parse_analysis_protocol_collection [] [] "u1" [c7prot]
        ≠ Except.ok r := by
  have h := c7_tolerance_mismatch_no_write [] [] "u1" c7prot
    ⟨some ⟨10, "dalton"⟩, some ⟨20, "dalton"⟩⟩ ⟨10, "dalton"⟩ ⟨20, "dalton"⟩
    rfl rfl rfl (Or.inl (by decide))
  exact ⟨rfl, Or.inl (by decide), h.1,
    fun r => h.2 [c7prot] (List.mem_singleton.mpr rfl) r⟩
